import Mathlib

/-!
# Verification of the par_seq fork-join primitive

Shallow embedding of `src/src/lib.rs`: the chunk-planning arithmetic shared by
`par_map` and `par_in_place_map`, the per-chunk view construction and write-back,
and the join loop that collects spawned-task results.

Machine integers (`usize`) are modelled as `Nat` with explicit fault values for
the panics Rust raises on division by zero and (in checked builds) on
subtraction underflow; out-of-range raw-slice construction is modelled as a
distinct `ub` outcome.
-/

namespace ParSeq

/-- A runtime fault of the Rust arithmetic: `usize` division by zero panics
unconditionally, and `usize` subtraction underflow panics in checked builds. -/
inductive RtError where
  | divByZero
  | subUnderflow
deriving Repr, DecidableEq

/-- A chunk descriptor: offset into the buffer and number of elements. -/
structure Chunk where
  offset : Nat
  length : Nat
deriving Repr, DecidableEq

instance {ε α : Type} [DecidableEq ε] [DecidableEq α] : DecidableEq (Except ε α) :=
  fun a b =>
    match a, b with
    | Except.error e, Except.error e₂ =>
      if h : e = e₂ then isTrue (by rw [h]) else isFalse (by intro hc; cases hc; exact h rfl)
    | Except.error _, Except.ok _ => isFalse (by intro hc; cases hc)
    | Except.ok _, Except.error _ => isFalse (by intro hc; cases hc)
    | Except.ok v, Except.ok v₂ =>
      if h : v = v₂ then isTrue (by rw [h]) else isFalse (by intro hc; cases hc; exact h rfl)

/-- The chunk-planning arithmetic of `par_map` (lib.rs lines 129-138):
`chunk_size = (len + num_threads - 1) / num_threads`,
`last_chunk_size = len - chunk_size * (num_threads - 1)`, and for each
`i in 0..num_threads` a chunk at offset `chunk_size * i` whose length is
`chunk_size` for `i < num_threads - 1` and `last_chunk_size` for the last.
The `usize` subtraction in `len + num_threads - 1` faults when
`len + num_threads = 0`; the division faults when `num_threads = 0`; the
subtraction in `last_chunk_size` faults when `chunk_size * (num_threads - 1)`
exceeds `len`. -/
def par_map_plan (len n : Nat) : Except RtError (List Chunk) :=
  if len + n = 0 then Except.error RtError.subUnderflow
  else if n = 0 then Except.error RtError.divByZero
  else
    let chunkSize := (len + n - 1) / n
    if chunkSize * (n - 1) ≤ len then
      Except.ok ((List.range n).map fun i =>
        ⟨chunkSize * i, if i < n - 1 then chunkSize else len - chunkSize * (n - 1)⟩)
    else Except.error RtError.subUnderflow

/-- The chunk-planning arithmetic of `par_in_place_map` (lib.rs lines 165-174);
it is textually identical to the arithmetic in `par_map`. -/
def par_in_place_plan (len n : Nat) : Except RtError (List Chunk) :=
  if len + n = 0 then Except.error RtError.subUnderflow
  else if n = 0 then Except.error RtError.divByZero
  else
    let chunkSize := (len + n - 1) / n
    if chunkSize * (n - 1) ≤ len then
      Except.ok ((List.range n).map fun i =>
        ⟨chunkSize * i, if i < n - 1 then chunkSize else len - chunkSize * (n - 1)⟩)
    else Except.error RtError.subUnderflow

/-- How a call to `par_map` / `par_in_place_map` terminates in the model:
normal completion, a panic of the calling thread during the chunk arithmetic,
or undefined behaviour from constructing an out-of-range raw slice. -/
inductive MapOutcome where
  | completed
  | panicked (e : RtError)
  | ub
deriving Repr, DecidableEq

/-- Observable result of a run: outcome, final destination buffer contents,
number of tasks spawned, and number of kernel invocations (each spawned task
performs exactly one kernel call). -/
structure MapRun (T : Type) where
  outcome : MapOutcome
  dest : List T
  spawned : Nat
  calls : Nat
deriving Repr, DecidableEq

/-- The view a task constructs with `from_raw_parts(ptr + offset, length)`:
the sub-list of `buf` at the chunk's range. Only meaningful when the range
lies inside the buffer; the runners check that bound explicitly. -/
def sliceOf {T : Type} (buf : List T) (c : Chunk) : List T :=
  (buf.drop c.offset).take c.length

/-- In-place mutation of the region `[off, off + xs.length)` of `buf` to `xs`,
modelling a task writing through its mutable view. -/
def writeBack {T : Type} (buf : List T) (off : Nat) (xs : List T) : List T :=
  buf.take off ++ xs ++ buf.drop (off + xs.length)

/-- The spawn-and-run phase of `par_map` (lib.rs lines 131-148): one task per
chunk, each constructing a source view and a destination view at the chunk's
offset and invoking the kernel on them. `destLen` is the length of the
destination buffer at call time (the raw pointer's extent, which in-place
mutation never changes); a chunk reaching past either buffer makes the raw
slice construction undefined behaviour, modelled as the `ub` outcome. -/
def runMapTasks {T : Type} (src : List T) (destLen : Nat)
    (k : List T → List T → List T) :
    List Chunk → List T → Nat → MapRun T
  | [], dest, done => ⟨MapOutcome.completed, dest, done, done⟩
  | c :: rest, dest, done =>
    if c.offset + c.length ≤ src.length ∧ c.offset + c.length ≤ destLen then
      runMapTasks src destLen k rest
        (writeBack dest c.offset (k (sliceOf src c) (sliceOf dest c))) (done + 1)
    else ⟨MapOutcome.ub, dest, done, done⟩

/-- Model of `pub fn par_map` (lib.rs lines 122-154): plan chunks over the
source length, then spawn one task per chunk; each task invokes the kernel on
its source/destination view pair; all tasks are then joined. The kernel is a
function from the source view and the initial destination view to the new
destination view contents (Rust kernels mutate the view in place, so they are
length-preserving; theorems state that hypothesis where the contents matter). -/
def par_map {T : Type} (src dest : List T) (n : Nat)
    (k : List T → List T → List T) : MapRun T :=
  match par_map_plan src.length n with
  | Except.error e => ⟨MapOutcome.panicked e, dest, 0, 0⟩
  | Except.ok chunks => runMapTasks src dest.length k chunks dest 0

/-- The spawn-and-run phase of `par_in_place_map` (lib.rs lines 167-182):
one task per chunk, each constructing a single mutable view and invoking the
one-argument kernel on it. -/
def runInPlaceTasks {T : Type} (bufLen : Nat) (k : List T → List T) :
    List Chunk → List T → Nat → MapRun T
  | [], buf, done => ⟨MapOutcome.completed, buf, done, done⟩
  | c :: rest, buf, done =>
    if c.offset + c.length ≤ bufLen then
      runInPlaceTasks bufLen k rest
        (writeBack buf c.offset (k (sliceOf buf c))) (done + 1)
    else ⟨MapOutcome.ub, buf, done, done⟩

/-- Model of `pub fn par_in_place_map` (lib.rs lines 158-189). -/
def par_in_place_map {T : Type} (buf : List T) (n : Nat)
    (k : List T → List T) : MapRun T :=
  match par_in_place_plan buf.length n with
  | Except.error e => ⟨MapOutcome.panicked e, buf, 0, 0⟩
  | Except.ok chunks => runInPlaceTasks buf.length k chunks buf 0

/-- Whether a joined task outcome is a failure (`t.join()` returned `Err`). -/
def isErr {E : Type} : Except E Unit → Bool
  | Except.error _ => true
  | Except.ok _ => false

/-- The join loop shared by `par_map` (lib.rs lines 149-154) and
`par_in_place_map` (lib.rs lines 183-188): handles are joined in spawn order;
on the first `Err` the function returns immediately. Given the list of task
outcomes in spawn order, returns the value the function returns and the number
of handles actually joined before returning (the remaining handles are dropped,
i.e. the threads are detached, not waited on). -/
def joinLoop {E : Type} : List (Except E Unit) → Except E Unit × Nat
  | [] => (Except.ok (), 0)
  | o :: rest =>
    match o with
    | Except.error e => (Except.error e, 1)
    | Except.ok _ =>
      let p := joinLoop rest
      (p.1, p.2 + 1)

/-- Reference behaviour from the spec for `numThreads = 1`: invoke the kernel
once, sequentially, over the entire buffer as a single chunk. -/
def seq_single_chunk_map {T : Type} (src dest : List T)
    (k : List T → List T → List T) : List T :=
  k src dest

/-- Reference behaviour from the spec for `numThreads = 1`, in-place form. -/
def seq_single_chunk_in_place {T : Type} (buf : List T)
    (k : List T → List T) : List T :=
  k buf

/-! ## Helper lemmas -/

theorem plan_defs_eq : ∀ (len n : Nat), par_in_place_plan len n = par_map_plan len n :=
  fun _ _ => rfl

theorem plan_ok_dest (len n : Nat) (chunks : List Chunk)
    (h : par_map_plan len n = Except.ok chunks) :
    n ≠ 0 ∧ ((len + n - 1) / n) * (n - 1) ≤ len ∧
    chunks = (List.range n).map (fun i =>
      ⟨((len + n - 1) / n) * i,
       if i < n - 1 then (len + n - 1) / n else len - ((len + n - 1) / n) * (n - 1)⟩) := by
  simp only [par_map_plan] at h
  by_cases h1 : len + n = 0
  · rw [if_pos h1] at h
    exact absurd h (by simp)
  rw [if_neg h1] at h
  by_cases h2 : n = 0
  · rw [if_pos h2] at h
    exact absurd h (by simp)
  rw [if_neg h2] at h
  by_cases h3 : (len + n - 1) / n * (n - 1) ≤ len
  · rw [if_pos h3] at h
    injection h with h
    exact ⟨h2, h3, h.symm⟩
  · rw [if_neg h3] at h
    exact absurd h (by simp)

theorem plan_chunks_le (len n : Nat) (chunks : List Chunk)
    (h : par_map_plan len n = Except.ok chunks) :
    ∀ c ∈ chunks, c.offset + c.length ≤ len := by
  obtain ⟨hn, hle, rfl⟩ := plan_ok_dest len n chunks h
  intro c hc
  simp only [List.mem_map, List.mem_range] at hc
  obtain ⟨i, hi, rfl⟩ := hc
  by_cases hlt : i < n - 1
  · simp only [hlt, if_true]
    have h1 : ((len + n - 1) / n) * (i + 1) ≤ ((len + n - 1) / n) * (n - 1) :=
      Nat.mul_le_mul_left _ (by omega)
    rw [Nat.mul_succ] at h1
    omega
  · have hi2 : i = n - 1 := by omega
    subst hi2
    simp only [hlt, if_false]
    omega

theorem plan_chunks_len (len n : Nat) (chunks : List Chunk)
    (h : par_map_plan len n = Except.ok chunks) : chunks.length = n := by
  obtain ⟨hn, hle, rfl⟩ := plan_ok_dest len n chunks h
  simp

theorem par_map_plan_one (len : Nat) : par_map_plan len 1 = Except.ok [⟨0, len⟩] := by
  unfold par_map_plan
  simp [List.range_succ]

theorem par_map_plan_zero_len (n : Nat) (hn : n ≠ 0) :
    par_map_plan 0 n = Except.ok ((List.range n).map fun _ => ⟨0, 0⟩) := by
  unfold par_map_plan
  have hdiv : (n - 1) / n = 0 := Nat.div_eq_of_lt (by omega)
  simp [hn, hdiv]

theorem runMapTasks_completes {T : Type} (src : List T) (destLen : Nat)
    (k : List T → List T → List T) (chunks : List Chunk) :
    ∀ (dest : List T) (done : Nat),
      (∀ c ∈ chunks, c.offset + c.length ≤ src.length ∧ c.offset + c.length ≤ destLen) →
      (runMapTasks src destLen k chunks dest done).outcome = MapOutcome.completed ∧
      (runMapTasks src destLen k chunks dest done).spawned = done + chunks.length ∧
      (runMapTasks src destLen k chunks dest done).calls = done + chunks.length := by
  induction chunks with
  | nil => intro dest done _; simp [runMapTasks]
  | cons c rest ih =>
    intro dest done h
    have hc := h c (by simp)
    rw [runMapTasks, if_pos hc]
    obtain ⟨h1, h2, h3⟩ := ih _ (done + 1) (fun c₂ hc₂ => h c₂ (by simp [hc₂]))
    refine ⟨h1, ?_, ?_⟩
    · rw [h2]; simp; omega
    · rw [h3]; simp; omega

theorem runInPlaceTasks_completes {T : Type} (bufLen : Nat)
    (k : List T → List T) (chunks : List Chunk) :
    ∀ (buf : List T) (done : Nat),
      (∀ c ∈ chunks, c.offset + c.length ≤ bufLen) →
      (runInPlaceTasks bufLen k chunks buf done).outcome = MapOutcome.completed ∧
      (runInPlaceTasks bufLen k chunks buf done).spawned = done + chunks.length ∧
      (runInPlaceTasks bufLen k chunks buf done).calls = done + chunks.length := by
  induction chunks with
  | nil => intro buf done _; simp [runInPlaceTasks]
  | cons c rest ih =>
    intro buf done h
    have hc := h c (by simp)
    rw [runInPlaceTasks, if_pos hc]
    obtain ⟨h1, h2, h3⟩ := ih _ (done + 1) (fun c₂ hc₂ => h c₂ (by simp [hc₂]))
    refine ⟨h1, ?_, ?_⟩
    · rw [h2]; simp; omega
    · rw [h3]; simp; omega

theorem runMapTasks_zero_chunks {T : Type} (k : List T → List T → List T)
    (hk : k [] [] = []) (chunks : List Chunk) :
    (∀ c ∈ chunks, c = ⟨0, 0⟩) → ∀ done : Nat,
      runMapTasks ([] : List T) 0 k chunks [] done =
        ⟨MapOutcome.completed, [], done + chunks.length, done + chunks.length⟩ := by
  induction chunks with
  | nil => intro _ done; simp [runMapTasks]
  | cons c rest ih =>
    intro h done
    have hc : c = ⟨0, 0⟩ := h c (by simp)
    subst hc
    rw [runMapTasks, if_pos (by simp)]
    have hs : sliceOf ([] : List T) ⟨0, 0⟩ = [] := rfl
    rw [hs, hk]
    have hw : writeBack ([] : List T) 0 [] = [] := rfl
    rw [hw, ih (fun c₂ hc₂ => h c₂ (by simp [hc₂])) (done + 1)]
    simp
    omega

theorem runInPlaceTasks_zero_chunks {T : Type} (k : List T → List T)
    (hk : k [] = []) (chunks : List Chunk) :
    (∀ c ∈ chunks, c = ⟨0, 0⟩) → ∀ done : Nat,
      runInPlaceTasks (T := T) 0 k chunks [] done =
        ⟨MapOutcome.completed, [], done + chunks.length, done + chunks.length⟩ := by
  induction chunks with
  | nil => intro _ done; simp [runInPlaceTasks]
  | cons c rest ih =>
    intro h done
    have hc : c = ⟨0, 0⟩ := h c (by simp)
    subst hc
    rw [runInPlaceTasks, if_pos (by simp)]
    have hs : sliceOf ([] : List T) ⟨0, 0⟩ = [] := rfl
    rw [hs, hk]
    have hw : writeBack ([] : List T) 0 [] = [] := rfl
    rw [hw, ih (fun c₂ hc₂ => h c₂ (by simp [hc₂])) (done + 1)]
    simp
    omega

/-! ## Claim theorems -/

/-- Claim C1. The spec asserts that for every totalLength and every numThreads
in the interval from 1 to totalLength the planned chunks partition the index
range. The code refutes this: at totalLength 5 and numThreads 4 the chunk size
is 2 and the last-chunk subtraction 5 - 2 * 3 underflows usize, so both
planners fault instead of producing a partition (and chunk 2 would already
reach past the buffer). -/
theorem chunk_partition_fails_at_5_4 :
    (1 ≤ 4 ∧ 4 ≤ 5) ∧
    par_map_plan 5 4 = Except.error RtError.subUnderflow ∧
    par_in_place_plan 5 4 = Except.error RtError.subUnderflow := by
  decide

/-- Claim C2. The spec requires every spawned task to be joined, in spawn
order, even after an earlier join reported failure. The join loop in the code
refutes this: with two task outcomes whose first is a failure, the loop
returns after joining only one of the two handles, detaching the second. -/
theorem join_abandons_tasks_after_failure :
    joinLoop [Except.error (0 : Nat), Except.ok ()] = (Except.error 0, 1) ∧
    (List.length [Except.error (0 : Nat), Except.ok ()]) = 2 := by
  decide

/-- Claim C3. The spec requires numThreads = 0 to be rejected with an
InvalidConfiguration error before the chunk arithmetic. The code refutes this:
with numThreads = 0 both functions proceed into the chunk arithmetic and panic
on the division by zero (no threads are spawned and the buffers are untouched,
but no error value of any configuration kind is returned). -/
theorem zero_threads_panics :
    par_map [1] [1] 0 (fun _ d => d) =
      ⟨MapOutcome.panicked RtError.divByZero, [1], 0, 0⟩ ∧
    par_in_place_map [1] 0 (fun d => d) =
      ⟨MapOutcome.panicked RtError.divByZero, [1], 0, 0⟩ := by
  decide

/-- Claim C4. The spec requires a LengthMismatch failure whenever the source
and destination lengths differ, detected before any spawn with the destination
unchanged. The code refutes this: it never compares the two lengths. With a
shorter destination the call spawns a task whose destination view reaches past
the buffer (undefined behaviour); with a longer destination the call completes
normally and writes into the destination. -/
theorem no_length_mismatch_check :
    par_map [1, 2] [5] 1 (fun s _ => s) = ⟨MapOutcome.ub, [5], 0, 0⟩ ∧
    par_map [1] [5, 6] 1 (fun s _ => s) =
      ⟨MapOutcome.completed, [1, 6], 1, 1⟩ := by
  decide

/-- Claim C5. The spec requires the planner to clamp when numThreads exceeds
totalLength: exactly totalLength chunks of length 1 and never a negative
length. The code refutes this: at totalLength 1, numThreads 3 the last-chunk
subtraction 1 - 1 * 2 underflows, and at totalLength 1, numThreads 2 the
planner emits two chunks (one of them empty) instead of one. -/
theorem no_clamp_when_threads_exceed_length :
    par_map_plan 1 3 = Except.error RtError.subUnderflow ∧
    par_map_plan 1 2 = Except.ok [⟨0, 1⟩, ⟨1, 0⟩] ∧
    par_in_place_plan 1 3 = Except.error RtError.subUnderflow := by
  decide

/-- Claim C6, confirmed. Handles are joined in spawn order, so when at least
one task fails the value returned is the failure of the first failing task in
spawn order: if the first failing outcome in the spawn-ordered list is the
error e, the join loop returns exactly that error. -/
theorem join_returns_first_failure {E : Type} (outs : List (Except E Unit)) (e : E)
    (h : outs.find? isErr = some (Except.error e)) :
    (joinLoop outs).1 = Except.error e := by
  induction outs with
  | nil => simp [List.find?] at h
  | cons o rest ih =>
    cases o with
    | error e₂ =>
      rw [List.find?] at h
      simp [isErr] at h
      rw [h]
      rfl
    | ok u =>
      rw [List.find?] at h
      simp only [isErr] at h
      simp only [joinLoop]
      exact ih h

/-- Witness for C6: three tasks, the second and third fail; the call returns
the failure of the second task, the first failing one in spawn order. -/
theorem join_returns_first_failure_witness :
    (joinLoop [Except.ok (), Except.error 7, Except.error 9]).1 = Except.error 7 :=
  join_returns_first_failure [Except.ok (), Except.error 7, Except.error 9] 7 (by decide)

/-- Claim C7, confirmed. With numThreads = 1 both functions plan the single
chunk covering the whole buffer and produce exactly the output of invoking the
kernel once, sequentially, on the entire buffer, as the spec-side reference
definitions state. The kernel hypotheses record that a Rust kernel mutates its
view in place and therefore cannot change its length. -/
theorem single_thread_is_sequential {T : Type} (src dest buf : List T)
    (k2 : List T → List T → List T) (k1 : List T → List T)
    (hlen : dest.length = src.length)
    (hk2 : (k2 src dest).length = dest.length)
    (hk1 : (k1 buf).length = buf.length) :
    par_map src dest 1 k2 =
      ⟨MapOutcome.completed, seq_single_chunk_map src dest k2, 1, 1⟩ ∧
    par_in_place_map buf 1 k1 =
      ⟨MapOutcome.completed, seq_single_chunk_in_place buf k1, 1, 1⟩ := by
  constructor
  · unfold par_map
    rw [par_map_plan_one]
    show runMapTasks src dest.length k2 [⟨0, src.length⟩] dest 0 =
      ⟨MapOutcome.completed, seq_single_chunk_map src dest k2, 1, 1⟩
    rw [runMapTasks, if_pos (by simp [hlen])]
    have hs : sliceOf src ⟨0, src.length⟩ = src := by
      simp [sliceOf]
    have hd : sliceOf dest ⟨0, src.length⟩ = dest := by
      simp [sliceOf, ← hlen]
    rw [hs, hd]
    have hw : writeBack dest 0 (k2 src dest) = k2 src dest := by
      simp [writeBack, hk2]
    rw [hw, runMapTasks]
    rfl
  · unfold par_in_place_map
    rw [plan_defs_eq, par_map_plan_one]
    show runInPlaceTasks buf.length k1 [⟨0, buf.length⟩] buf 0 =
      ⟨MapOutcome.completed, seq_single_chunk_in_place buf k1, 1, 1⟩
    rw [runInPlaceTasks, if_pos (by simp)]
    have hs : sliceOf buf ⟨0, buf.length⟩ = buf := by
      simp [sliceOf]
    rw [hs]
    have hw : writeBack buf 0 (k1 buf) = k1 buf := by
      simp [writeBack, hk1]
    rw [hw, runInPlaceTasks]
    rfl

/-- Witness for C7 at concrete buffers and kernels. -/
theorem single_thread_is_sequential_witness :
    par_map [1, 2] [3, 4] 1 (fun s _ => s) =
      ⟨MapOutcome.completed, seq_single_chunk_map [1, 2] [3, 4] (fun s _ => s), 1, 1⟩ ∧
    par_in_place_map [5, 6] 1 (fun b => b) =
      ⟨MapOutcome.completed, seq_single_chunk_in_place [5, 6] (fun b => b), 1, 1⟩ :=
  single_thread_is_sequential [1, 2] [3, 4] [5, 6] (fun s _ => s) (fun b => b)
    (by decide) (by decide) (by decide)

/-- Claim C8, confirmed. On a zero-length buffer and any numThreads of at
least 1, both functions complete successfully and the destination is
unchanged; the planner emits numThreads empty chunks, so numThreads tasks
still run, each on an empty view. -/
theorem zero_length_buffer_succeeds {T : Type} (n : Nat) (hn : 1 ≤ n)
    (k2 : List T → List T → List T) (k1 : List T → List T)
    (hk2 : k2 [] [] = []) (hk1 : k1 [] = []) :
    par_map ([] : List T) [] n k2 = ⟨MapOutcome.completed, [], n, n⟩ ∧
    par_in_place_map ([] : List T) n k1 = ⟨MapOutcome.completed, [], n, n⟩ := by
  have hplan := par_map_plan_zero_len n (by omega)
  have hmem : ∀ c ∈ (List.range n).map (fun _ => (⟨0, 0⟩ : Chunk)), c = ⟨0, 0⟩ := by
    intro c hc
    simp only [List.mem_map] at hc
    obtain ⟨i, _, rfl⟩ := hc
    rfl
  constructor
  · unfold par_map
    simp only [List.length_nil]
    rw [hplan]
    show runMapTasks ([] : List T) 0 k2 ((List.range n).map fun _ => ⟨0, 0⟩) [] 0 =
      ⟨MapOutcome.completed, [], n, n⟩
    rw [runMapTasks_zero_chunks k2 hk2 _ hmem 0]
    simp
  · unfold par_in_place_map
    simp only [List.length_nil]
    rw [plan_defs_eq, hplan]
    show runInPlaceTasks (T := T) 0 k1 ((List.range n).map fun _ => ⟨0, 0⟩) [] 0 =
      ⟨MapOutcome.completed, [], n, n⟩
    rw [runInPlaceTasks_zero_chunks k1 hk1 _ hmem 0]
    simp

/-- Witness for C8 at numThreads = 3 and concrete identity-shaped kernels. -/
theorem zero_length_buffer_succeeds_witness :
    par_map ([] : List Nat) [] 3 (fun _ d => d) = ⟨MapOutcome.completed, [], 3, 3⟩ ∧
    par_in_place_map ([] : List Nat) 3 (fun d => d) = ⟨MapOutcome.completed, [], 3, 3⟩ :=
  zero_length_buffer_succeeds 3 (by decide) (fun _ d => d) (fun d => d) rfl rfl

/-- Claim C9, confirmed. The chunk arithmetic transcribed from par_map and the
chunk arithmetic transcribed from par_in_place_map are the same function of
the buffer length and the thread count, so the two public operations partition
their buffers identically. -/
theorem plans_coincide : ∀ (len n : Nat), par_map_plan len n = par_in_place_plan len n :=
  fun _ _ => rfl

/-- Claim C10, confirmed. Whenever the chunk arithmetic does not fault (the
planner returns a chunk list), both functions spawn exactly numThreads tasks
and the kernel is invoked exactly numThreads times — in particular a task is
spawned and the kernel invoked even for chunks of length zero. For par_map
the destination must be as long as the source, since otherwise the planned
views reach past the destination and the run is undefined behaviour. -/
theorem spawn_and_call_counts {T : Type} (src dest buf : List T) (n : Nat)
    (k2 : List T → List T → List T) (k1 : List T → List T)
    (chunksM chunksI : List Chunk)
    (hplanM : par_map_plan src.length n = Except.ok chunksM)
    (hlen : dest.length = src.length)
    (hplanI : par_in_place_plan buf.length n = Except.ok chunksI) :
    (par_map src dest n k2).spawned = n ∧ (par_map src dest n k2).calls = n ∧
    (par_in_place_map buf n k1).spawned = n ∧ (par_in_place_map buf n k1).calls = n := by
  have hleM := plan_chunks_le src.length n chunksM hplanM
  have hlenM := plan_chunks_len src.length n chunksM hplanM
  rw [plan_defs_eq] at hplanI
  have hleI := plan_chunks_le buf.length n chunksI hplanI
  have hlenI := plan_chunks_len buf.length n chunksI hplanI
  constructor
  · unfold par_map
    rw [hplanM]
    have h := (runMapTasks_completes src dest.length k2 chunksM dest 0
      (fun c hc => ⟨hleM c hc, by rw [hlen]; exact hleM c hc⟩)).2.1
    rw [h, hlenM]
    omega
  constructor
  · unfold par_map
    rw [hplanM]
    have h := (runMapTasks_completes src dest.length k2 chunksM dest 0
      (fun c hc => ⟨hleM c hc, by rw [hlen]; exact hleM c hc⟩)).2.2
    rw [h, hlenM]
    omega
  constructor
  · unfold par_in_place_map
    rw [plan_defs_eq, hplanI]
    have h := (runInPlaceTasks_completes buf.length k1 chunksI buf 0 hleI).2.1
    rw [h, hlenI]
    omega
  · unfold par_in_place_map
    rw [plan_defs_eq, hplanI]
    have h := (runInPlaceTasks_completes buf.length k1 chunksI buf 0 hleI).2.2
    rw [h, hlenI]
    omega

/-- Witness for C10: three source elements over two threads (chunks of length
2 and 1) and a two-element in-place buffer over two threads. -/
theorem spawn_and_call_counts_witness :
    (par_map [1, 2, 3] [4, 5, 6] 2 (fun s _ => s)).spawned = 2 ∧
    (par_map [1, 2, 3] [4, 5, 6] 2 (fun s _ => s)).calls = 2 ∧
    (par_in_place_map [7, 8] 2 (fun b => b)).spawned = 2 ∧
    (par_in_place_map [7, 8] 2 (fun b => b)).calls = 2 :=
  spawn_and_call_counts [1, 2, 3] [4, 5, 6] [7, 8] 2 (fun s _ => s) (fun b => b)
    [⟨0, 2⟩, ⟨2, 1⟩] [⟨0, 1⟩, ⟨1, 1⟩] (by decide) (by decide) (by decide)

end ParSeq
